import Mathlib

/-!
Shallow embedding of the WebRTC-Sync pipeline (`src/server.py`).

The program is a three-stage media pipeline per session:
a fast producer (`fast_producer`) decodes audio, slices it into fixed
1920-sample chunks, pairs each chunk with a video image and pushes both
into two unbounded raw queues (buffer A); a pacer (`strict_pacer`) pops a
video/audio pair per iteration, waits until `start_time + frame_count/FPS`
and re-pushes the pair into two paced queues (buffer B); consumer tracks
(`ConsumerVideoTrack.recv` / `ConsumerAudioTrack.recv`) pop from buffer B,
translating the `None` sentinel into a `MediaStreamError` stop.

Embedding conventions: each asyncio.Queue is a single-producer /
single-consumer FIFO, so the sequence of values a consumer pops equals the
sequence its producer pushed; we therefore model a queue as the list of
values ever pushed to it, and a blocking `get` that runs off the end of
that list as a permanent suspension (the pushing task has terminated, so
no further item ever arrives).  Wall-clock time is modelled by ℚ; the
time at which the two pops of each pacer iteration complete is an arbitrary
schedule `sched : Nat → ℚ` supplied to the model, and `asyncio.sleep`
until a target is idealized as resuming exactly at the target.
-/

namespace WebRTCSync

/-- Frames-per-second constant, server.py line 20. -/
def FPS : Nat := 25

/-- Audio sample rate, server.py line 21. -/
def AUDIO_RATE : Nat := 48000

/-- Samples per audio chunk: `int(AUDIO_RATE / FPS)` = 1920 (40 ms), server.py line 22. -/
def CHUNK_SIZE : Nat := AUDIO_RATE / FPS

/-- Duration of one paced frame: `1.0 / FPS`, server.py line 61. -/
def frame_duration : ℚ := 1 / (FPS : ℚ)

/-- An audio chunk as built by `fast_producer` (server.py lines 127, 134-135):
sample payload abstracted to its sample count, plus `pts` and `time_base`. -/
structure AudioFrame where
  sampleCount : Nat
  pts : Nat
  timeBase : ℚ
deriving DecidableEq

/-- A video frame as built by `fast_producer` (server.py lines 137-139):
the image is abstracted to the index of the source file in `frame_files`. -/
structure VideoFrame where
  img : Nat
  pts : Nat
  timeBase : ℚ
deriving DecidableEq

/-! ### Producer (server.py lines 94-154, `fast_producer`)

The audio container is modelled as the list of demuxed packets; decoding a
packet yields a list of resampled frames, each abstracted to its sample
count (sample values are irrelevant to the claims), and may then raise a
decode error (`decodeError = true` means decoding of the packet raises
after yielding `frames`, and the exception escapes `fast_producer`). -/

/-- One demuxed packet of the audio source. -/
structure Packet where
  frames : List Nat
  decodeError : Bool
deriving DecidableEq

/-- Mutable state of `fast_producer`: the buffered sample count of the FIFO,
`frame_idx`, `pts_counter`, and the two per-kind sequences of frames pushed
so far to buffer A. -/
structure ProdState where
  fifoSamples : Nat
  frameIdx : Nat
  ptsCounter : Nat
  outA : List AudioFrame
  outV : List VideoFrame
deriving DecidableEq

/-- One pass of the slicing loop body, server.py lines 127-144: read 1920
samples from the FIFO, read the image at `frame_idx` and bump it, stamp the
audio chunk with `pts = pts_counter * CHUNK_SIZE` at time base `1/48000` and
the video frame with `pts = pts_counter * 3600` at time base `1/90000`, push
both, bump `pts_counter`. -/
def sliceStep (s : ProdState) : ProdState :=
  { fifoSamples := s.fifoSamples - CHUNK_SIZE
    frameIdx := s.frameIdx + 1
    ptsCounter := s.ptsCounter + 1
    outA := s.outA ++ [⟨CHUNK_SIZE, s.ptsCounter * CHUNK_SIZE, 1 / (AUDIO_RATE : ℚ)⟩]
    outV := s.outV ++ [⟨s.frameIdx, s.ptsCounter * 3600, 1 / (90000 : ℚ)⟩] }

/-- The slicing loop body of server.py lines 123-147, bounded by `fuel`:
`while fifo.samples >= CHUNK_SIZE: if frame_idx >= total_frames: break; ...`.
Each pass removes `CHUNK_SIZE ≥ 1` samples from the FIFO, so with
`fuel = s.fifoSamples` (as `slice` passes) the fuel never runs out before
the loop condition fails — `sliceGo_fuel` below proves the fuel bound is
immaterial, i.e. this is exactly the unbounded `while` loop. -/
def sliceGo (total : Nat) : Nat → ProdState → ProdState
  | 0, s => s
  | fuel + 1, s =>
    if CHUNK_SIZE ≤ s.fifoSamples then
      if total ≤ s.frameIdx then s
      else sliceGo total fuel (sliceStep s)
    else s

/-- The slicing loop, server.py lines 123-147. -/
def slice (total : Nat) (s : ProdState) : ProdState :=
  sliceGo total s.fifoSamples s

theorem sliceGo_fuel_eq (total : Nat) :
    ∀ (fuel1 fuel2 : Nat) (s : ProdState),
      s.fifoSamples ≤ fuel1 → s.fifoSamples ≤ fuel2 →
      sliceGo total fuel1 s = sliceGo total fuel2 s := by
  have hc : 0 < CHUNK_SIZE := by norm_num [CHUNK_SIZE, AUDIO_RATE, FPS]
  intro fuel1
  induction fuel1 with
  | zero =>
    intro fuel2 s h1 h2
    have hnf : ¬ CHUNK_SIZE ≤ s.fifoSamples := by omega
    cases fuel2 with
    | zero => rfl
    | succ m =>
      simp only [sliceGo]
      rw [if_neg hnf]
  | succ f1 ih =>
    intro fuel2 s h1 h2
    by_cases hfull : CHUNK_SIZE ≤ s.fifoSamples
    · obtain ⟨m, hm⟩ : ∃ m, fuel2 = m + 1 := ⟨fuel2 - 1, by omega⟩
      subst hm
      simp only [sliceGo]
      rw [if_pos hfull, if_pos hfull]
      by_cases hdone : total ≤ s.frameIdx
      · rw [if_pos hdone, if_pos hdone]
      · rw [if_neg hdone, if_neg hdone]
        have hstep : (sliceStep s).fifoSamples = s.fifoSamples - CHUNK_SIZE := rfl
        exact ih m (sliceStep s) (by omega) (by omega)
    · cases fuel2 with
      | zero =>
        simp only [sliceGo]
        rw [if_neg hfull]
      | succ m =>
        simp only [sliceGo]
        rw [if_neg hfull, if_neg hfull]

/-- Any fuel at least `s.fifoSamples` computes the unbounded while loop. -/
theorem sliceGo_fuel (total fuel : Nat) (s : ProdState) (h : s.fifoSamples ≤ fuel) :
    sliceGo total fuel s = slice total s :=
  sliceGo_fuel_eq total fuel s.fifoSamples s h le_rfl

/-- Writing one resampled frame into the FIFO (server.py line 120) and then
running the slicing loop. -/
def writeAndSlice (total : Nat) (s : ProdState) (c : Nat) : ProdState :=
  slice total { s with fifoSamples := s.fifoSamples + c }

/-- Processing the frames decoded from one packet, server.py lines 112-147. -/
def processPacket (total : Nat) (s : ProdState) (fs : List Nat) : ProdState :=
  fs.foldl (writeAndSlice total) s

/-- The demux loop of `fast_producer`, server.py lines 111-149.  Returns the
final state and whether a decode error escaped (in which case the loop is
abandoned mid-way and the sentinel pushes at lines 152-153 never run). -/
def runPackets (total : Nat) : List Packet → ProdState → ProdState × Bool
  | [], s => (s, false)
  | p :: rest, s =>
    let s2 := processPacket total s p.frames
    if p.decodeError then (s2, true)
    else if total ≤ s2.frameIdx then (s2, false)
    else runPackets total rest s2

/-- What `fast_producer` has pushed to the two raw queues when it stops
running, plus whether it stopped by raising. -/
structure ProducerResult where
  rawA : List (Option AudioFrame)
  rawV : List (Option VideoFrame)
  raised : Bool
deriving DecidableEq

/-- Initial producer state: empty FIFO, `frame_idx = 0`, `pts_counter = 0`. -/
def initState : ProdState := ⟨0, 0, 0, [], []⟩

/-- The producer, server.py lines 94-154.  `total` is `total_frames` (the
number of video image files) and `packets` the demuxed audio source.  On the
normal exit path one `None` sentinel is appended to each raw queue (lines
152-153); on the decode-error path the exception escapes first, so nothing
is appended. -/
def fast_producer (total : Nat) (packets : List Packet) : ProducerResult :=
  let r := runPackets total packets initState
  if r.2 then ⟨r.1.outA.map some, r.1.outV.map some, true⟩
  else ⟨r.1.outA.map some ++ [none], r.1.outV.map some ++ [none], false⟩

/-! ### Pacer (server.py lines 56-91, `strict_pacer`) -/

/-- One release event of the pacer: the `frame_count` value, the computed
`target_time` (line 81) and the wall-clock time of the pushes (lines 88-89),
which is `target_time` when the pacer slept (line 85) and the pop-completion
time otherwise. -/
structure Release where
  fc : Nat
  target : ℚ
  time : ℚ
deriving DecidableEq

/-- How a pacer run ends: it reaches the sentinel branch (lines 68-73), or it
suspends forever in `raw_v_q.get()` (line 65) or `raw_a_q.get()` (line 66)
because that queue is exhausted and its producer has terminated. -/
inductive PacerOutcome where
  | completed
  | blockedOnVideo
  | blockedOnAudio
deriving DecidableEq

/-- Observable behaviour of a pacer run: the two paced-queue contents
(buffer B), the release trace, and how the run ended. -/
structure PacerResult where
  slowV : List (Option VideoFrame)
  slowA : List (Option AudioFrame)
  releases : List Release
  outcome : PacerOutcome
deriving DecidableEq

/-- The pacer loop, server.py lines 63-91.  Each iteration pops `v_frame`
from the raw video queue and `a_frame` from the raw audio queue — both pops
block when their queue is exhausted.  If `v_frame` is the sentinel it pushes
`None` to both paced queues and breaks (the popped `a_frame` is discarded);
otherwise it computes `target_time = start_time + frame_count * frame_duration`,
sleeps while `target_time` is in the future, pushes the pair and increments
`frame_count`.  `sched fc` is the wall-clock instant at which the two pops of
iteration `fc` have completed. -/
def strict_pacer (start : ℚ) (sched : Nat → ℚ) :
    List (Option VideoFrame) → List (Option AudioFrame) → Nat → PacerResult
  | [], _, _ => ⟨[], [], [], .blockedOnVideo⟩
  | _ :: _, [], _ => ⟨[], [], [], .blockedOnAudio⟩
  | none :: _, _ :: _, _ => ⟨[none], [none], [], .completed⟩
  | some vf :: vs, a :: rest, fc =>
    let r := strict_pacer start sched vs rest (fc + 1)
    let target : ℚ := start + (fc : ℚ) * frame_duration
    ⟨some vf :: r.slowV, a :: r.slowA,
      ⟨fc, target, max (sched fc) target⟩ :: r.releases, r.outcome⟩

/-- The whole per-session pipeline as wired by `offer` (server.py lines
168-183): the producer fills buffer A, the pacer drains it into buffer B. -/
def sessionRun (total : Nat) (packets : List Packet) (start : ℚ) (sched : Nat → ℚ) :
    PacerResult :=
  strict_pacer start sched (fast_producer total packets).rawV
    (fast_producer total packets).rawA 0

/-! ### Consumer tracks (server.py lines 29-52) -/

/-- Result of one `recv` call on a consumer track: a frame is returned, or
the sentinel is popped (the track stops and `MediaStreamError` is raised,
leaving the rest of the queue), or the queue is exhausted and the `get`
suspends forever. -/
inductive RecvResult (F : Type) where
  | frame (f : F) (rest : List (Option F))
  | mediaStreamError (rest : List (Option F))
  | blocked
deriving DecidableEq

/-- The body shared verbatim by `ConsumerVideoTrack.recv` (lines 34-40) and
`ConsumerAudioTrack.recv` (lines 47-52): `frame = await self.queue.get()`,
then `if frame is None: self.stop(); raise MediaStreamError()`, else return
the frame. -/
def Consumer.recv {F : Type} : List (Option F) → RecvResult F
  | [] => .blocked
  | none :: rest => .mediaStreamError rest
  | some f :: rest => .frame f rest

/-- The full sequence of frames a consumer track hands to the transport:
repeated `recv` until the sentinel stops the track (or the queue ends). -/
def consumeAll {F : Type} : List (Option F) → List F
  | [] => []
  | none :: _ => []
  | some f :: rest => f :: consumeAll rest

/-! ### Characterization of the producer output -/

/-- The first `k` audio chunks `fast_producer` pushes: each holds exactly
`CHUNK_SIZE` samples, with sequential `pts` at time base `1/48000`. -/
def canonA (k : Nat) : List AudioFrame :=
  (List.range k).map fun j => ⟨CHUNK_SIZE, j * CHUNK_SIZE, 1 / (AUDIO_RATE : ℚ)⟩

/-- The first `k` video frames `fast_producer` pushes: the `j`-th image with
`pts = j * 3600` at time base `1/90000`. -/
def canonV (k : Nat) : List VideoFrame :=
  (List.range k).map fun j => ⟨j, j * 3600, 1 / (90000 : ℚ)⟩

theorem canonA_length (k : Nat) : (canonA k).length = k := by simp [canonA]

theorem canonV_length (k : Nat) : (canonV k).length = k := by simp [canonV]

theorem canonA_succ (k : Nat) :
    canonA (k + 1) = canonA k ++ [⟨CHUNK_SIZE, k * CHUNK_SIZE, 1 / (AUDIO_RATE : ℚ)⟩] := by
  simp [canonA, List.range_succ]

theorem canonV_succ (k : Nat) :
    canonV (k + 1) = canonV k ++ [⟨k, k * 3600, 1 / (90000 : ℚ)⟩] := by
  simp [canonV, List.range_succ]

/-- Producer loop invariant: after `k` emissions the counters equal `k` and
the pushed frames are the canonical first `k` chunks/frames. -/
def Canon (s : ProdState) (k : Nat) : Prop :=
  s.frameIdx = k ∧ s.ptsCounter = k ∧ s.outA = canonA k ∧ s.outV = canonV k

theorem canon_init : Canon initState 0 := by
  refine ⟨rfl, rfl, ?_, ?_⟩ <;> simp [initState, canonA, canonV]

theorem canon_sliceStep {s : ProdState} {k : Nat} (h : Canon s k) :
    Canon (sliceStep s) (k + 1) := by
  obtain ⟨h1, h2, h3, h4⟩ := h
  refine ⟨by simp [sliceStep, h1], by simp [sliceStep, h2], ?_, ?_⟩
  · simp [sliceStep, h3, h2, canonA_succ]
  · simp [sliceStep, h4, h1, h2, canonV_succ]

theorem canon_sliceGo (total : Nat) :
    ∀ (fuel : Nat) (s : ProdState) (k : Nat), Canon s k → k ≤ total →
      ∃ k2, k ≤ k2 ∧ k2 ≤ total ∧ Canon (sliceGo total fuel s) k2 := by
  intro fuel
  induction fuel with
  | zero =>
    intro s k hc hk
    exact ⟨k, le_rfl, hk, hc⟩
  | succ fuel ih =>
    intro s k hc hk
    rw [sliceGo]
    by_cases hfull : CHUNK_SIZE ≤ s.fifoSamples
    · rw [if_pos hfull]
      by_cases hdone : total ≤ s.frameIdx
      · rw [if_pos hdone]
        exact ⟨k, le_rfl, hk, hc⟩
      · rw [if_neg hdone]
        have hklt : k < total := by
          have := hc.1
          omega
        obtain ⟨k2, hk2, hk2t, h⟩ := ih (sliceStep s) (k + 1) (canon_sliceStep hc) hklt
        exact ⟨k2, by omega, hk2t, h⟩
    · rw [if_neg hfull]
      exact ⟨k, le_rfl, hk, hc⟩

theorem canon_slice {total : Nat} {s : ProdState} {k : Nat}
    (hc : Canon s k) (hk : k ≤ total) :
    ∃ k2, k ≤ k2 ∧ k2 ≤ total ∧ Canon (slice total s) k2 :=
  canon_sliceGo total s.fifoSamples s k hc hk

theorem canon_processPacket (total : Nat) (fs : List Nat) :
    ∀ (s : ProdState) (k : Nat), Canon s k → k ≤ total →
      ∃ k2, k ≤ k2 ∧ k2 ≤ total ∧ Canon (processPacket total s fs) k2 := by
  induction fs with
  | nil =>
    intro s k hc hk
    exact ⟨k, le_rfl, hk, hc⟩
  | cons c rest ih =>
    intro s k hc hk
    have hc2 : Canon { s with fifoSamples := s.fifoSamples + c } k := by
      obtain ⟨h1, h2, h3, h4⟩ := hc
      exact ⟨h1, h2, h3, h4⟩
    obtain ⟨k1, hk1, hk1t, hcs⟩ := canon_slice hc2 hk
    obtain ⟨k2, hk2, hk2t, hcp⟩ := ih _ k1 hcs hk1t
    refine ⟨k2, le_trans hk1 hk2, hk2t, ?_⟩
    simpa [processPacket, writeAndSlice] using hcp

theorem canon_runPackets (total : Nat) (ps : List Packet) :
    ∀ (s : ProdState) (k : Nat), Canon s k → k ≤ total →
      ∃ k2, k ≤ k2 ∧ k2 ≤ total ∧ Canon (runPackets total ps s).1 k2 := by
  induction ps with
  | nil =>
    intro s k hc hk
    exact ⟨k, le_rfl, hk, hc⟩
  | cons p rest ih =>
    intro s k hc hk
    obtain ⟨k1, hk1, hk1t, hcp⟩ := canon_processPacket total p.frames s k hc hk
    rw [runPackets]
    by_cases he : p.decodeError
    · simp only [he, if_true]
      exact ⟨k1, hk1, hk1t, hcp⟩
    · by_cases ht : total ≤ (processPacket total s p.frames).frameIdx
      · simp only [he, if_false, Bool.false_eq_true, ht, if_true]
        exact ⟨k1, hk1, hk1t, hcp⟩
      · simp only [he, if_false, Bool.false_eq_true, ht, if_true]
        obtain ⟨k2, hk2, hk2t, h⟩ := ih _ k1 hcp hk1t
        exact ⟨k2, le_trans hk1 hk2, hk2t, h⟩

/-- The audio source never raises iff every packet decodes cleanly. -/
def noError (ps : List Packet) : Prop := ∀ p ∈ ps, p.decodeError = false

instance (ps : List Packet) : Decidable (noError ps) :=
  inferInstanceAs (Decidable (∀ p ∈ ps, p.decodeError = false))

theorem runPackets_noError (total : Nat) (ps : List Packet) :
    ∀ s, noError ps → (runPackets total ps s).2 = false := by
  induction ps with
  | nil => intro s _; rfl
  | cons p rest ih =>
    intro s hne
    have hp : p.decodeError = false := hne p (List.mem_cons_self p rest)
    rw [runPackets]
    by_cases ht : total ≤ (processPacket total s p.frames).frameIdx
    · simp only [hp, Bool.false_eq_true, if_false, ht, if_true]
    · simp only [hp, Bool.false_eq_true, if_false, ht, if_true]
      exact ih _ fun q hq => hne q (List.mem_cons_of_mem p hq)

theorem producer_outA_outV (total : Nat) (ps : List Packet) :
    ∃ k, k ≤ total ∧ (runPackets total ps initState).1.outA = canonA k ∧
      (runPackets total ps initState).1.outV = canonV k := by
  obtain ⟨k, _, hkt, h⟩ := canon_runPackets total ps initState 0 canon_init (Nat.zero_le _)
  exact ⟨k, hkt, h.2.2.1, h.2.2.2⟩

theorem fast_producer_noError (total : Nat) (ps : List Packet) (h : noError ps) :
    ∃ k, k ≤ total ∧ fast_producer total ps =
      ⟨(canonA k).map some ++ [none], (canonV k).map some ++ [none], false⟩ := by
  obtain ⟨k, hkt, hA, hV⟩ := producer_outA_outV total ps
  refine ⟨k, hkt, ?_⟩
  simp only [fast_producer, runPackets_noError total ps initState h, Bool.false_eq_true,
    if_false, hA, hV]

/-! ### Characterization of the pacer on producer-shaped inputs -/

/-- Release trace of `n` consecutive pacer iterations starting at
`frame_count = fc`: iteration `fc` targets `start + fc * frame_duration` and
pushes at that target or at the pop-completion instant, whichever is later. -/
def releasesFrom (start : ℚ) (sched : Nat → ℚ) : Nat → Nat → List Release
  | _, 0 => []
  | fc, n + 1 =>
    ⟨fc, start + (fc : ℚ) * frame_duration,
      max (sched fc) (start + (fc : ℚ) * frame_duration)⟩ ::
        releasesFrom start sched (fc + 1) n

theorem releasesFrom_length (start : ℚ) (sched : Nat → ℚ) :
    ∀ (n fc : Nat), (releasesFrom start sched fc n).length = n := by
  intro n
  induction n with
  | zero => intro fc; rfl
  | succ n ih => intro fc; simp [releasesFrom, ih]

theorem releasesFrom_getElem? (start : ℚ) (sched : Nat → ℚ) :
    ∀ (n fc i : Nat), i < n →
      (releasesFrom start sched fc n)[i]? =
        some ⟨fc + i, start + ((fc + i : Nat) : ℚ) * frame_duration,
          max (sched (fc + i)) (start + ((fc + i : Nat) : ℚ) * frame_duration)⟩ := by
  intro n
  induction n with
  | zero => intro fc i h; omega
  | succ n ih =>
    intro fc i h
    cases i with
    | zero => simp [releasesFrom]
    | succ i =>
      have h2 : fc + 1 + i = fc + (i + 1) := by omega
      have h3 := ih (fc + 1) i (by omega)
      rw [h2] at h3
      simpa [releasesFrom] using h3

/-- Pacer run on aligned producer-shaped queues: equally many real video and
audio frames, each followed by one sentinel.  The pacer forwards both lists
verbatim to buffer B, produces the canonical release trace, and terminates
through the sentinel branch. -/
theorem strict_pacer_aligned (start : ℚ) (sched : Nat → ℚ) :
    ∀ (xs : List VideoFrame) (ys : List AudioFrame) (fc : Nat), xs.length = ys.length →
      strict_pacer start sched (xs.map some ++ [none]) (ys.map some ++ [none]) fc =
        ⟨xs.map some ++ [none], ys.map some ++ [none],
          releasesFrom start sched fc xs.length, .completed⟩ := by
  intro xs
  induction xs with
  | nil =>
    intro ys fc h
    have hy : ys = [] := List.length_eq_zero.mp h.symm
    subst hy
    simp [strict_pacer, releasesFrom]
  | cons x xs ih =>
    intro ys fc h
    cases ys with
    | nil => simp at h
    | cons y ys =>
      have h2 : xs.length = ys.length := by simpa using h
      have hrec := ih ys (fc + 1) h2
      simp [strict_pacer, releasesFrom, hrec]

/-! ### Consumer-side lemmas -/

theorem consumeAll_map_some_append {F : Type} (xs : List F) (t : List (Option F)) :
    consumeAll (xs.map some ++ t) = xs ++ consumeAll t := by
  induction xs with
  | nil => simp
  | cons x xs ih => simp [consumeAll, ih]

theorem consumeAll_map_some {F : Type} (xs : List F) : consumeAll (xs.map some) = xs := by
  simpa [consumeAll] using consumeAll_map_some_append xs []

theorem consumeAll_sentinel {F : Type} (t : List (Option F)) :
    consumeAll (none :: t) = [] := rfl

theorem count_none_map_some {α : Type} [DecidableEq α] (xs : List α) :
    ((xs.map some : List (Option α)).count none) = 0 := by
  simp [List.count_eq_zero]

/-- One equation for the whole session: with an error-free audio source the
producer pushes the canonical `k` chunk/frame pairs plus sentinels, and the
pacer forwards them unchanged with the canonical release trace. -/
theorem sessionRun_eq (total : Nat) (packets : List Packet) (hok : noError packets)
    (start : ℚ) (sched : Nat → ℚ) :
    ∃ k, k ≤ total ∧
      fast_producer total packets =
        ⟨(canonA k).map some ++ [none], (canonV k).map some ++ [none], false⟩ ∧
      sessionRun total packets start sched =
        ⟨(canonV k).map some ++ [none], (canonA k).map some ++ [none],
          releasesFrom start sched 0 k, .completed⟩ := by
  obtain ⟨k, hk, hfp⟩ := fast_producer_noError total packets hok
  refine ⟨k, hk, hfp, ?_⟩
  rw [sessionRun, hfp]
  have h := strict_pacer_aligned start sched (canonV k) (canonA k) 0
    (by simp [canonA_length, canonV_length])
  simpa [canonV_length] using h

/-! ### Audio-sample accounting -/

/-- Total number of audio samples in a list of chunks. -/
def sumSamples (l : List AudioFrame) : Nat := (l.map AudioFrame.sampleCount).sum

theorem canonA_take {i k : Nat} (h : i ≤ k) : (canonA k).take i = canonA i := by
  rw [canonA, canonA, ← List.map_take, List.take_range, Nat.min_eq_left h]

theorem sumSamples_canonA (i : Nat) : sumSamples (canonA i) = i * CHUNK_SIZE := by
  induction i with
  | zero => simp [sumSamples, canonA]
  | succ i ih =>
    rw [canonA_succ]
    simp only [sumSamples, List.map_append, List.sum_append, List.map_cons, List.map_nil,
      List.sum_cons, List.sum_nil, Nat.add_zero] at ih ⊢
    rw [ih, Nat.succ_mul]

/-- The fixed-rate target coincides with the audio-sample-derived target
because every chunk holds exactly `CHUNK_SIZE = AUDIO_RATE / FPS` samples. -/
theorem target_cast (start : ℚ) (i : Nat) :
    start + (i : ℚ) * frame_duration
      = start + ((i * CHUNK_SIZE : Nat) : ℚ) / (AUDIO_RATE : ℚ) := by
  have h3 : CHUNK_SIZE = 1920 := by norm_num [CHUNK_SIZE, AUDIO_RATE, FPS]
  rw [h3]
  norm_num [frame_duration, FPS, AUDIO_RATE]
  ring

/-! ### The claims -/

/-- C1: in every session, the pacer computes the `i`-th release target
`start_time + frame_count * frame_duration` equals
`session_start + audio_samples_released / AUDIO_RATE`, where
`audio_samples_released` is the sum of `sampleCount` over the previously
released audio chunks (each released chunk holds exactly
`CHUNK_SIZE = AUDIO_RATE / FPS = 1920` samples), and the release is pushed
no earlier than that target. -/
theorem C1_target_is_audio_clock (total : Nat) (packets : List Packet)
    (hok : noError packets) (start : ℚ) (sched : Nat → ℚ) (i : Nat) (r : Release)
    (hr : (sessionRun total packets start sched).releases[i]? = some r) :
    r.target = start +
        ((sumSamples ((consumeAll (sessionRun total packets start sched).slowA).take i) : Nat) : ℚ)
          / (AUDIO_RATE : ℚ) ∧
    r.target ≤ r.time := by
  obtain ⟨k, hk, hfp, hses⟩ := sessionRun_eq total packets hok start sched
  rw [hses] at hr ⊢
  dsimp only at hr ⊢
  obtain ⟨hlt, -⟩ := List.getElem?_eq_some.mp hr
  rw [releasesFrom_length] at hlt
  rw [releasesFrom_getElem? start sched k 0 i hlt] at hr
  have hreq := Option.some.inj hr
  subst hreq
  dsimp only
  constructor
  · rw [consumeAll_map_some_append, consumeAll_sentinel, List.append_nil,
      canonA_take (le_of_lt hlt), sumSamples_canonA, Nat.zero_add]
    exact target_cast start i
  · exact le_max_right _ _

/-- Witness for C1: a one-chunk session started at time 0 with instantaneous
pops; the single release targets time 0 with zero samples released before it. -/
theorem C1_target_is_audio_clock_witness :
    noError [⟨[1920], false⟩] ∧
    (sessionRun 1 [⟨[1920], false⟩] 0 (fun _ => 0)).releases[0]? = some ⟨0, 0, 0⟩ ∧
    ((0 : ℚ) = 0 +
        ((sumSamples ((consumeAll (sessionRun 1 [⟨[1920], false⟩] 0
            (fun _ => 0)).slowA).take 0) : Nat) : ℚ) / (AUDIO_RATE : ℚ) ∧
      (0 : ℚ) ≤ 0) :=
  ⟨by decide,
    by simp [sessionRun, fast_producer, runPackets, processPacket, writeAndSlice, slice,
      sliceGo, sliceStep, initState, CHUNK_SIZE, AUDIO_RATE, FPS, strict_pacer, frame_duration],
    C1_target_is_audio_clock 1 [⟨[1920], false⟩] (by decide) 0 (fun _ => 0) 0 ⟨0, 0, 0⟩
      (by simp [sessionRun, fast_producer, runPackets, processPacket, writeAndSlice, slice,
        sliceGo, sliceStep, initState, CHUNK_SIZE, AUDIO_RATE, FPS, strict_pacer,
        frame_duration])⟩

/-- C2 counterexample: the claim says the pacer never suspends waiting on the
raw video buffer, yet with an empty raw video queue and a real audio chunk
available the very first pacer pop (`await raw_v_q.get()`, server.py
line 65) suspends on the raw video queue and no audio is ever released. -/
theorem C2_counterexample :
    (strict_pacer 0 (fun _ => 0) [] [some ⟨1920, 0, 1 / 48000⟩] 0).outcome
        = PacerOutcome.blockedOnVideo ∧
    (strict_pacer 0 (fun _ => 0) [] [some ⟨1920, 0, 1 / 48000⟩] 0).slowA = [] ∧
    (strict_pacer 0 (fun _ => 0) [] [some ⟨1920, 0, 1 / 48000⟩] 0).releases = [] :=
  ⟨rfl, rfl, rfl⟩

/-- C2 amended: every pacer iteration begins with a blocking pop on the raw
video queue (before the audio pop), so whenever the raw video queue is
exhausted the pacer suspends there and releases nothing — an empty raw video
buffer does stall audio pacing. -/
theorem C2_amended_video_pop_blocks (start : ℚ) (sched : Nat → ℚ)
    (aq : List (Option AudioFrame)) (fc : Nat) :
    strict_pacer start sched [] aq fc = ⟨[], [], [], .blockedOnVideo⟩ := rfl

/-- C3: frames are never released early — every release of any pacer run is
pushed at a wall-clock time `≥` its target, and when the target is already
past at the end of the pops (`wait_time ≤ 0`, server.py lines 82-85) the
frame is pushed immediately at the pop-completion instant with no extra wait. -/
theorem C3_never_early (start : ℚ) (sched : Nat → ℚ) (vq : List (Option VideoFrame))
    (aq : List (Option AudioFrame)) (fc : Nat) (r : Release)
    (hr : r ∈ (strict_pacer start sched vq aq fc).releases) :
    r.target ≤ r.time ∧ (r.target ≤ sched r.fc → r.time = sched r.fc) := by
  induction vq generalizing aq fc with
  | nil => simp [strict_pacer] at hr
  | cons v vs ih =>
    cases aq with
    | nil => simp [strict_pacer] at hr
    | cons a rest =>
      cases v with
      | none => simp [strict_pacer] at hr
      | some vf =>
        simp only [strict_pacer] at hr
        rcases List.mem_cons.mp hr with h | h
        · subst h
          exact ⟨le_max_right _ _, fun hle => max_eq_left hle⟩
        · exact ih rest (fc + 1) h

/-- Witness for C3: a session whose pops complete at time 5, after the
target 0 — the frame is released at 5, immediately and not early. -/
theorem C3_never_early_witness :
    (⟨0, 0, 5⟩ : Release) ∈ (strict_pacer 0 (fun _ => 5)
        [some ⟨0, 0, 1 / 90000⟩, none] [some ⟨1920, 0, 1 / 48000⟩, none] 0).releases ∧
    ((0 : ℚ) ≤ 5 ∧ ((0 : ℚ) ≤ (5 : ℚ) → (5 : ℚ) = 5)) :=
  ⟨by simp [strict_pacer, frame_duration,
      show max (5 : ℚ) 0 = 5 from max_eq_left (by norm_num)],
    C3_never_early 0 (fun _ => 5) [some ⟨0, 0, 1 / 90000⟩, none]
      [some ⟨1920, 0, 1 / 48000⟩, none] 0 ⟨0, 0, 5⟩
      (by simp [strict_pacer, frame_duration,
        show max (5 : ℚ) 0 = 5 from max_eq_left (by norm_num)])⟩

/-- C4: every session over an error-free source runs to completion, and each
paced buffer then holds exactly one `None` sentinel, as its last element —
no real frame follows it and no second sentinel is ever pushed. -/
theorem C4_sentinel_exactly_one_last (total : Nat) (packets : List Packet)
    (hok : noError packets) (start : ℚ) (sched : Nat → ℚ) :
    (sessionRun total packets start sched).outcome = PacerOutcome.completed ∧
    (sessionRun total packets start sched).slowV.count none = 1 ∧
    (sessionRun total packets start sched).slowV.getLast? = some none ∧
    (sessionRun total packets start sched).slowA.count none = 1 ∧
    (sessionRun total packets start sched).slowA.getLast? = some none := by
  obtain ⟨k, hk, hfp, hses⟩ := sessionRun_eq total packets hok start sched
  rw [hses]
  refine ⟨rfl, ?_, List.getLast?_concat _, ?_, List.getLast?_concat _⟩
  · simp [List.count_append, count_none_map_some]
  · simp [List.count_append, count_none_map_some]

/-- Witness for C4 at a concrete two-chunk session. -/
theorem C4_sentinel_exactly_one_last_witness :
    noError [⟨[3840], false⟩] ∧
    ((sessionRun 2 [⟨[3840], false⟩] 0 (fun _ => 0)).outcome = PacerOutcome.completed ∧
      (sessionRun 2 [⟨[3840], false⟩] 0 (fun _ => 0)).slowV.count none = 1 ∧
      (sessionRun 2 [⟨[3840], false⟩] 0 (fun _ => 0)).slowV.getLast? = some none ∧
      (sessionRun 2 [⟨[3840], false⟩] 0 (fun _ => 0)).slowA.count none = 1 ∧
      (sessionRun 2 [⟨[3840], false⟩] 0 (fun _ => 0)).slowA.getLast? = some none) :=
  ⟨by decide, C4_sentinel_exactly_one_last 2 [⟨[3840], false⟩] (by decide) 0 (fun _ => 0)⟩

/-- C5 counterexample: the same two-packet audio source holds three full
chunks (shown by the run with three video images), yet with a single video
image the producer emits only one audio chunk and stops — video exhaustion
halts audio production instead of letting it continue (server.py lines 124
and 149 break out of both loops once `frame_idx >= total_frames`). -/
theorem C5_counterexample :
    consumeAll (fast_producer 3 [⟨[1920], false⟩, ⟨[3840], false⟩]).rawA
        = [⟨1920, 0, 1 / 48000⟩, ⟨1920, 1920, 1 / 48000⟩, ⟨1920, 3840, 1 / 48000⟩] ∧
    consumeAll (fast_producer 1 [⟨[1920], false⟩, ⟨[3840], false⟩]).rawA
        = [⟨1920, 0, 1 / 48000⟩] := by
  constructor <;> simp [fast_producer, runPackets, processPacket, writeAndSlice, slice,
    sliceGo, sliceStep, initState, CHUNK_SIZE, AUDIO_RATE, FPS, consumeAll]

/-- C5 amended: when the video image sequence is exhausted the producer
stops producing both tracks — the number of audio chunks always equals the
number of video frames and never exceeds the number of video images, so
audio does not continue past the end of video. -/
theorem C5_amended_video_bounds_audio (total : Nat) (packets : List Packet)
    (hok : noError packets) :
    (consumeAll (fast_producer total packets).rawA).length
        = (consumeAll (fast_producer total packets).rawV).length ∧
    (consumeAll (fast_producer total packets).rawA).length ≤ total := by
  obtain ⟨k, hk, hfp⟩ := fast_producer_noError total packets hok
  rw [hfp]
  dsimp only
  simp [consumeAll_map_some_append, consumeAll_sentinel, canonA_length, canonV_length, hk]

/-- Witness for the amended C5: one video image against three chunks of
audio yields exactly one audio chunk. -/
theorem C5_amended_video_bounds_audio_witness :
    noError [⟨[5760], false⟩] ∧
    ((consumeAll (fast_producer 1 [⟨[5760], false⟩]).rawA).length
        = (consumeAll (fast_producer 1 [⟨[5760], false⟩]).rawV).length ∧
      (consumeAll (fast_producer 1 [⟨[5760], false⟩]).rawA).length ≤ 1) :=
  ⟨by decide, C5_amended_video_bounds_audio 1 [⟨[5760], false⟩] (by decide)⟩

theorem fast_producer_consumeAll (total : Nat) (packets : List Packet) :
    ∃ k, k ≤ total ∧ consumeAll (fast_producer total packets).rawA = canonA k ∧
      consumeAll (fast_producer total packets).rawV = canonV k := by
  obtain ⟨k, hk, hA, hV⟩ := producer_outA_outV total packets
  refine ⟨k, hk, ?_, ?_⟩ <;>
  · by_cases h2 : (runPackets total packets initState).2
    · simp [fast_producer, h2, hA, hV, consumeAll_map_some]
    · simp [fast_producer, h2, hA, hV, consumeAll_map_some_append, consumeAll_sentinel]

theorem canonA_getElem? {k n : Nat} {a : AudioFrame} (h : (canonA k)[n]? = some a) :
    n < k ∧ a = ⟨CHUNK_SIZE, n * CHUNK_SIZE, 1 / (AUDIO_RATE : ℚ)⟩ := by
  by_cases hn : n < k
  · refine ⟨hn, ?_⟩
    rw [canonA, List.getElem?_map, List.getElem?_range hn] at h
    simpa using h.symm
  · exfalso
    have hlen : (List.range k).length ≤ n := by simpa using Nat.le_of_not_lt hn
    rw [canonA, List.getElem?_map, List.getElem?_eq_none hlen] at h
    simp at h

theorem canonV_getElem? {k n : Nat} {v : VideoFrame} (h : (canonV k)[n]? = some v) :
    n < k ∧ v = ⟨n, n * 3600, 1 / (90000 : ℚ)⟩ := by
  by_cases hn : n < k
  · refine ⟨hn, ?_⟩
    rw [canonV, List.getElem?_map, List.getElem?_range hn] at h
    simpa using h.symm
  · exfalso
    have hlen : (List.range k).length ≤ n := by simpa using Nat.le_of_not_lt hn
    rw [canonV, List.getElem?_map, List.getElem?_eq_none hlen] at h
    simp at h

/-- C6: for every producer run, the `m`-th and `n`-th emitted audio chunks
carry `pts = m * CHUNK_SIZE` and `n * CHUNK_SIZE` at time base `1/48000`,
the `m`-th and `n`-th video frames carry `pts = m * 3600` and `n * 3600`
ticks at time base `1/90000`, and both timestamp sequences are strictly
increasing. -/
theorem C6_sequential_pts (total : Nat) (packets : List Packet) (m n : Nat)
    (am an : AudioFrame) (vm vn : VideoFrame)
    (ham : (consumeAll (fast_producer total packets).rawA)[m]? = some am)
    (han : (consumeAll (fast_producer total packets).rawA)[n]? = some an)
    (hvm : (consumeAll (fast_producer total packets).rawV)[m]? = some vm)
    (hvn : (consumeAll (fast_producer total packets).rawV)[n]? = some vn)
    (hmn : m < n) :
    am.pts = m * CHUNK_SIZE ∧ an.pts = n * CHUNK_SIZE ∧
    am.timeBase = 1 / (AUDIO_RATE : ℚ) ∧ an.timeBase = 1 / (AUDIO_RATE : ℚ) ∧
    vm.pts = m * 3600 ∧ vn.pts = n * 3600 ∧
    vm.timeBase = 1 / (90000 : ℚ) ∧ vn.timeBase = 1 / (90000 : ℚ) ∧
    am.pts < an.pts ∧ vm.pts < vn.pts := by
  obtain ⟨k, hk, hA, hV⟩ := fast_producer_consumeAll total packets
  rw [hA] at ham han
  rw [hV] at hvm hvn
  obtain ⟨hmk, ham2⟩ := canonA_getElem? ham
  obtain ⟨hnk, han2⟩ := canonA_getElem? han
  obtain ⟨-, hvm2⟩ := canonV_getElem? hvm
  obtain ⟨-, hvn2⟩ := canonV_getElem? hvn
  subst ham2
  subst han2
  subst hvm2
  subst hvn2
  have hC : 0 < CHUNK_SIZE := by norm_num [CHUNK_SIZE, AUDIO_RATE, FPS]
  refine ⟨rfl, rfl, rfl, rfl, rfl, rfl, rfl, rfl, ?_, ?_⟩
  · exact Nat.mul_lt_mul_of_lt_of_le hmn (le_refl CHUNK_SIZE) hC
  · exact Nat.mul_lt_mul_of_lt_of_le hmn (le_refl 3600) (by norm_num)

/-- Witness for C6: the two chunk/frame pairs of a 3840-sample source. -/
theorem C6_sequential_pts_witness :
    (consumeAll (fast_producer 2 [⟨[3840], false⟩]).rawA)[0]? = some ⟨1920, 0, 1 / 48000⟩ ∧
    (consumeAll (fast_producer 2 [⟨[3840], false⟩]).rawA)[1]? = some ⟨1920, 1920, 1 / 48000⟩ ∧
    (consumeAll (fast_producer 2 [⟨[3840], false⟩]).rawV)[0]? = some ⟨0, 0, 1 / 90000⟩ ∧
    (consumeAll (fast_producer 2 [⟨[3840], false⟩]).rawV)[1]? = some ⟨1, 3600, 1 / 90000⟩ ∧
    0 < 1 ∧
    ((⟨1920, 0, 1 / 48000⟩ : AudioFrame).pts = 0 * CHUNK_SIZE ∧
      (⟨1920, 1920, 1 / 48000⟩ : AudioFrame).pts = 1 * CHUNK_SIZE ∧
      (⟨1920, 0, 1 / 48000⟩ : AudioFrame).timeBase = 1 / (AUDIO_RATE : ℚ) ∧
      (⟨1920, 1920, 1 / 48000⟩ : AudioFrame).timeBase = 1 / (AUDIO_RATE : ℚ) ∧
      (⟨0, 0, 1 / 90000⟩ : VideoFrame).pts = 0 * 3600 ∧
      (⟨1, 3600, 1 / 90000⟩ : VideoFrame).pts = 1 * 3600 ∧
      (⟨0, 0, 1 / 90000⟩ : VideoFrame).timeBase = 1 / (90000 : ℚ) ∧
      (⟨1, 3600, 1 / 90000⟩ : VideoFrame).timeBase = 1 / (90000 : ℚ) ∧
      (⟨1920, 0, 1 / 48000⟩ : AudioFrame).pts < (⟨1920, 1920, 1 / 48000⟩ : AudioFrame).pts ∧
      (⟨0, 0, 1 / 90000⟩ : VideoFrame).pts < (⟨1, 3600, 1 / 90000⟩ : VideoFrame).pts) :=
  ⟨by simp [fast_producer, runPackets, processPacket, writeAndSlice, slice, sliceGo,
      sliceStep, initState, CHUNK_SIZE, AUDIO_RATE, FPS, consumeAll],
    by simp [fast_producer, runPackets, processPacket, writeAndSlice, slice, sliceGo,
      sliceStep, initState, CHUNK_SIZE, AUDIO_RATE, FPS, consumeAll],
    by simp [fast_producer, runPackets, processPacket, writeAndSlice, slice, sliceGo,
      sliceStep, initState, CHUNK_SIZE, AUDIO_RATE, FPS, consumeAll],
    by simp [fast_producer, runPackets, processPacket, writeAndSlice, slice, sliceGo,
      sliceStep, initState, CHUNK_SIZE, AUDIO_RATE, FPS, consumeAll],
    by decide,
    C6_sequential_pts 2 [⟨[3840], false⟩] 0 1 ⟨1920, 0, 1 / 48000⟩ ⟨1920, 1920, 1 / 48000⟩
      ⟨0, 0, 1 / 90000⟩ ⟨1, 3600, 1 / 90000⟩
      (by simp [fast_producer, runPackets, processPacket, writeAndSlice, slice, sliceGo,
        sliceStep, initState, CHUNK_SIZE, AUDIO_RATE, FPS, consumeAll])
      (by simp [fast_producer, runPackets, processPacket, writeAndSlice, slice, sliceGo,
        sliceStep, initState, CHUNK_SIZE, AUDIO_RATE, FPS, consumeAll])
      (by simp [fast_producer, runPackets, processPacket, writeAndSlice, slice, sliceGo,
        sliceStep, initState, CHUNK_SIZE, AUDIO_RATE, FPS, consumeAll])
      (by simp [fast_producer, runPackets, processPacket, writeAndSlice, slice, sliceGo,
        sliceStep, initState, CHUNK_SIZE, AUDIO_RATE, FPS, consumeAll])
      (by decide)⟩

/-- C7: per media kind, the frame sequence a consumer track observes equals
the frame sequence the producer pushed — the pacer forwards frames one at a
time in FIFO order, dropping, duplicating and reordering none. -/
theorem C7_order_isomorphic (total : Nat) (packets : List Packet) (hok : noError packets)
    (start : ℚ) (sched : Nat → ℚ) :
    consumeAll (sessionRun total packets start sched).slowV
        = consumeAll (fast_producer total packets).rawV ∧
    consumeAll (sessionRun total packets start sched).slowA
        = consumeAll (fast_producer total packets).rawA := by
  obtain ⟨k, hk, hfp, hses⟩ := sessionRun_eq total packets hok start sched
  rw [hses, hfp]
  constructor <;> simp [consumeAll_map_some_append, consumeAll_sentinel]

/-- Witness for C7 at a one-chunk session. -/
theorem C7_order_isomorphic_witness :
    noError [⟨[1920], false⟩] ∧
    (consumeAll (sessionRun 1 [⟨[1920], false⟩] 0 (fun _ => 0)).slowV
        = consumeAll (fast_producer 1 [⟨[1920], false⟩]).rawV ∧
      consumeAll (sessionRun 1 [⟨[1920], false⟩] 0 (fun _ => 0)).slowA
        = consumeAll (fast_producer 1 [⟨[1920], false⟩]).rawA) :=
  ⟨by decide, C7_order_isomorphic 1 [⟨[1920], false⟩] (by decide) 0 (fun _ => 0)⟩

/-- C8: on the decode-error exit path the producer raises before reaching
the sentinel pushes of server.py lines 152-153 — evaluated at a source whose
first packet yields one clean chunk and then fails to decode, the producer
terminates by raising with one real frame and no sentinel on either raw
buffer, so the pacer would block forever on the next pop. -/
theorem C8_decode_error_skips_sentinels :
    (fast_producer 5 [⟨[1920], true⟩]).raised = true ∧
    (fast_producer 5 [⟨[1920], true⟩]).rawA = [some ⟨1920, 0, 1 / 48000⟩] ∧
    (fast_producer 5 [⟨[1920], true⟩]).rawV = [some ⟨0, 0, 1 / 90000⟩] ∧
    ¬ none ∈ (fast_producer 5 [⟨[1920], true⟩]).rawA ∧
    ¬ none ∈ (fast_producer 5 [⟨[1920], true⟩]).rawV := by
  refine ⟨?_, ?_, ?_, ?_, ?_⟩ <;>
    simp [fast_producer, runPackets, processPacket, writeAndSlice, slice, sliceGo,
      sliceStep, initState, CHUNK_SIZE, AUDIO_RATE, FPS]

/-- C9 counterexample: the `recv` call that pops the sentinel stops the
track and raises `MediaStreamError`, consuming the sentinel; the paced queue
is then empty, so the next `recv` call suspends forever in
`await self.queue.get()` instead of reporting the stream-ended condition. -/
theorem C9_counterexample :
    Consumer.recv ([none] : List (Option AudioFrame)) = RecvResult.mediaStreamError [] ∧
    Consumer.recv ([] : List (Option AudioFrame)) = RecvResult.blocked :=
  ⟨rfl, rfl⟩

/-- C9 amended: observing the sentinel reports stream-ended exactly once —
the sentinel is consumed by that call, and a subsequent call on the then
empty paced buffer blocks rather than reporting stream-ended again. -/
theorem C9_amended_stop_not_idempotent (q : List (Option AudioFrame)) :
    Consumer.recv (none :: q) = RecvResult.mediaStreamError q ∧
    Consumer.recv ([] : List (Option AudioFrame)) = RecvResult.blocked :=
  ⟨rfl, rfl⟩

/-- C10: the producer pushes audio and video strictly in pairs — the two raw
buffers have equal length, hold exactly one sentinel each, both in the last
position (so the paired pop of the pacer meets both sentinels simultaneously),
and the video-only end-of-stream check of the pacer discards no real audio frame:
the audio a consumer observes is exactly the audio the producer pushed. -/
theorem C10_paired_production (total : Nat) (packets : List Packet) (hok : noError packets)
    (start : ℚ) (sched : Nat → ℚ) :
    (fast_producer total packets).rawA.length = (fast_producer total packets).rawV.length ∧
    (fast_producer total packets).rawA.count none = 1 ∧
    (fast_producer total packets).rawV.count none = 1 ∧
    (fast_producer total packets).rawA.getLast? = some none ∧
    (fast_producer total packets).rawV.getLast? = some none ∧
    consumeAll (sessionRun total packets start sched).slowA
        = consumeAll (fast_producer total packets).rawA := by
  obtain ⟨k, hk, hfp, hses⟩ := sessionRun_eq total packets hok start sched
  rw [hses, hfp]
  refine ⟨?_, ?_, ?_, List.getLast?_concat _, List.getLast?_concat _, ?_⟩
  · simp [canonA_length, canonV_length]
  · simp [List.count_append, count_none_map_some]
  · simp [List.count_append, count_none_map_some]
  · simp [consumeAll_map_some_append, consumeAll_sentinel]

/-- Witness for C10 at a session whose single packet decodes to two
resampled frames. -/
theorem C10_paired_production_witness :
    noError [⟨[1920, 1920], false⟩] ∧
    ((fast_producer 2 [⟨[1920, 1920], false⟩]).rawA.length
        = (fast_producer 2 [⟨[1920, 1920], false⟩]).rawV.length ∧
      (fast_producer 2 [⟨[1920, 1920], false⟩]).rawA.count none = 1 ∧
      (fast_producer 2 [⟨[1920, 1920], false⟩]).rawV.count none = 1 ∧
      (fast_producer 2 [⟨[1920, 1920], false⟩]).rawA.getLast? = some none ∧
      (fast_producer 2 [⟨[1920, 1920], false⟩]).rawV.getLast? = some none ∧
      consumeAll (sessionRun 2 [⟨[1920, 1920], false⟩] 0 (fun _ => 0)).slowA
        = consumeAll (fast_producer 2 [⟨[1920, 1920], false⟩]).rawA) :=
  ⟨by decide, C10_paired_production 2 [⟨[1920, 1920], false⟩] (by decide) 0 (fun _ => 0)⟩

end WebRTCSync
